import Mathlib

/-
  Verification development for the mcp-rest-api server (src/index.ts).

  The embedding models the JavaScript values and operations of the source:
  JsValue mirrors the dynamic values handled by the argument validator,
  the environment-driven authentication selector, endpoint normalization,
  outbound request construction, and the result-envelope builders of the
  CallToolRequestSchema handler.
-/

set_option autoImplicit false

namespace RestApi

/-- Model of a JavaScript runtime value as handled by the source. -/
inductive JsValue where
  | undefined
  | jsNull
  | bool (b : Bool)
  | num (n : Int)
  | str (s : String)
  | arr (elems : List JsValue)
  | obj (fields : List (String × JsValue))

/-- JavaScript typeof operator restricted to the value forms modelled. -/
def typeof : JsValue → String
  | .undefined => "undefined"
  | .jsNull => "object"
  | .bool _ => "boolean"
  | .num _ => "number"
  | .str _ => "string"
  | .arr _ => "object"
  | .obj _ => "object"

/-- Property access v.k as used by the handler: a missing property or a
property access on a non-object yields undefined. -/
def getProp (v : JsValue) (k : String) : JsValue :=
  match v with
  | .obj fields =>
    match fields.lookup k with
    | some x => x
    | none => .undefined
  | _ => .undefined

/-- Field lookup on a JSON-like object value. -/
def getField (v : JsValue) (k : String) : Option JsValue :=
  match v with
  | .obj fields => fields.lookup k
  | _ => none

/-- Two-step field lookup. -/
def getPath2 (v : JsValue) (k1 k2 : String) : Option JsValue :=
  match getField v k1 with
  | some w => getField w k2
  | none => none

def isUndefined : JsValue → Bool
  | .undefined => true
  | _ => false

def isNullJs : JsValue → Bool
  | .jsNull => true
  | _ => false

/-- The keys that survive JSON.stringify of an object value: properties whose
value is undefined are dropped by the serializer. -/
def serializedKeys (v : JsValue) : List String :=
  match v with
  | .obj fields => (fields.filter (fun p => !(isUndefined p.2))).map (fun p => p.1)
  | _ => []

/-- JavaScript truthiness of the modelled values. -/
def jsTruthy : JsValue → Bool
  | .undefined => false
  | .jsNull => false
  | .bool b => b
  | .num n => !(n == 0)
  | .str s => !(s == "")
  | .arr _ => true
  | .obj _ => true

/-- Underlying string of a string value, defaulting to the empty string. -/
def asString : JsValue → String
  | .str s => s
  | _ => ""

/-- Mirror of the includes check on the method enumeration in
isValidEndpointArgs: an array-includes with strict equality, so only a
string value can match. -/
def includesMethod (v : JsValue) : Bool :=
  match v with
  | .str s => s == "GET" || s == "POST" || s == "PUT" || s == "DELETE"
  | _ => false

/-- Translation of isValidEndpointArgs (src/index.ts lines 28-34). -/
def isValidEndpointArgs (args : JsValue) : Bool :=
  if typeof args != "object" || isNullJs args then false
  else if !(includesMethod (getProp args "method")) then false
  else if typeof (getProp args "endpoint") != "string" then false
  else if !(isUndefined (getProp args "headers")) && typeof (getProp args "headers") != "object" then false
  else true

/-- The five credential environment variables read at process start
(src/index.ts lines 15-19); none means the variable is unset. -/
structure Env where
  AUTH_BASIC_USERNAME : Option String
  AUTH_BASIC_PASSWORD : Option String
  AUTH_BEARER : Option String
  AUTH_APIKEY_HEADER_NAME : Option String
  AUTH_APIKEY_VALUE : Option String

/-- JavaScript truthiness of an environment slot: unset and the empty
string are falsy, every other string is truthy. -/
def truthyStr : Option String → Bool
  | none => false
  | some s => !(s == "")

/-- Value of an environment slot, defaulting to the empty string. -/
def optStr (o : Option String) : String :=
  o.getD ""

/-- Translation of hasBasicAuth (src/index.ts line 36). -/
def hasBasicAuth (env : Env) : Bool :=
  truthyStr env.AUTH_BASIC_USERNAME && truthyStr env.AUTH_BASIC_PASSWORD

/-- Translation of hasBearerAuth (src/index.ts line 37). -/
def hasBearerAuth (env : Env) : Bool :=
  truthyStr env.AUTH_BEARER

/-- Translation of hasApiKeyAuth (src/index.ts line 38). -/
def hasApiKeyAuth (env : Env) : Bool :=
  truthyStr env.AUTH_APIKEY_HEADER_NAME && truthyStr env.AUTH_APIKEY_VALUE

/-- The four authentication modes of the data model. -/
inductive AuthMode where
  | basic
  | bearer
  | apikey
  | noAuth
deriving DecidableEq

/-- The active authentication mode, determined by the if-else chain used both
for header injection (lines 169-185) and for the authMethod record
(lines 194-197). -/
def activeMode (env : Env) : AuthMode :=
  if hasBasicAuth env then .basic
  else if hasBearerAuth env then .bearer
  else if hasApiKeyAuth env then .apikey
  else .noAuth

/-- The authMethod string recorded in the success envelope
(src/index.ts lines 194-197). -/
def authMethodString (env : Env) : String :=
  if hasBasicAuth env then "basic"
  else if hasBearerAuth env then "bearer"
  else if hasApiKeyAuth env then "apikey"
  else "none"

/-- UTF-8 byte sequence of a character, as produced by Buffer.from on a
JavaScript string. -/
def utf8Bytes (c : Char) : List Nat :=
  let n := c.toNat
  if n < 128 then [n]
  else if n < 2048 then [192 + n / 64, 128 + n % 64]
  else if n < 65536 then [224 + n / 4096, 128 + (n / 64) % 64, 128 + n % 64]
  else [240 + n / 262144, 128 + (n / 4096) % 64, 128 + (n / 64) % 64, 128 + n % 64]

def base64Table : List Char :=
  "ABCDEFGHIJKLMNOPQRSTUVWXYZabcdefghijklmnopqrstuvwxyz0123456789+/".data

def base64Char (n : Nat) : Char :=
  base64Table.getD n 'A'

/-- Standard base64 of a byte list, with padding, as produced by
Buffer.toString with the base64 encoding. -/
def base64EncodeBytes : List Nat → List Char
  | [] => []
  | [b1] => [base64Char (b1 / 4), base64Char (b1 % 4 * 16), '=', '=']
  | [b1, b2] => [base64Char (b1 / 4), base64Char (b1 % 4 * 16 + b2 / 16), base64Char (b2 % 16 * 4), '=']
  | b1 :: b2 :: b3 :: rest =>
    base64Char (b1 / 4) :: base64Char (b1 % 4 * 16 + b2 / 16) ::
    base64Char (b2 % 16 * 4 + b3 / 64) :: base64Char (b3 % 64) :: base64EncodeBytes rest

/-- Base64 of the UTF-8 bytes of a string: Buffer.from(s).toString(base64). -/
def base64 (s : String) : String :=
  ⟨base64EncodeBytes ((s.data.map utf8Bytes).flatten)⟩

/-- The single authentication header injected by the handler, when one is:
its name and value for the active mode (src/index.ts lines 169-185). -/
def authHeaderKV (env : Env) : Option (String × String) :=
  if hasBasicAuth env then
    some ("Authorization", "Basic " ++ base64 (optStr env.AUTH_BASIC_USERNAME ++ ":" ++ optStr env.AUTH_BASIC_PASSWORD))
  else if hasBearerAuth env then
    some ("Authorization", "Bearer " ++ optStr env.AUTH_BEARER)
  else if hasApiKeyAuth env then
    some (optStr env.AUTH_APIKEY_HEADER_NAME, optStr env.AUTH_APIKEY_VALUE)
  else none

/-- Strip the leading run of slash characters. -/
def dropLeadingSlashes : List Char → List Char
  | [] => []
  | c :: cs => if c = '/' then dropLeadingSlashes cs else c :: cs

/-- Strip the leading and the trailing run of slashes, the effect of the
replace with the anchored slash-run regex in src/index.ts line 154. -/
def stripSlashes (l : List Char) : List Char :=
  (dropLeadingSlashes (dropLeadingSlashes l).reverse).reverse

/-- Translation of normalizedEndpoint (src/index.ts line 154): strip leading
and trailing slash runs and prepend one slash. -/
def normalizedEndpoint (s : String) : String :=
  ⟨'/' :: stripSlashes s.data⟩

/-- JavaScript object spread with one overriding entry: an existing key keeps
its position and receives the new value, a fresh key is appended. -/
def setField : List (String × JsValue) → String → JsValue → List (String × JsValue)
  | [], k, v => [(k, v)]
  | (k0, v0) :: rest, k, v =>
    if k0 = k then (k, v) :: rest else (k0, v0) :: setField rest k v

/-- The object fields of the headers value placed into the request config:
arguments.headers or the empty object when that is falsy; spreading an array
yields index-keyed fields. -/
def headersToFields : JsValue → List (String × JsValue)
  | .obj fields => fields
  | .arr elems => elems.enum.map (fun p => (toString p.1, p.2))
  | _ => []

/-- The axios request config assembled by the handler. -/
structure AxiosConfig where
  method : String
  url : String
  headers : List (String × JsValue)
  data : Option JsValue

/-- Request config before authentication injection
(src/index.ts lines 156-166): method, normalized url, caller headers, and a
body only for a POST or PUT with a truthy body argument. -/
def buildConfig (args : JsValue) : AxiosConfig :=
  let method := asString (getProp args "method")
  { method := method
    url := normalizedEndpoint (asString (getProp args "endpoint"))
    headers := headersToFields (getProp args "headers")
    data :=
      if (method == "POST" || method == "PUT") && jsTruthy (getProp args "body")
      then some (getProp args "body") else none }

/-- Authentication header injection (src/index.ts lines 168-185): the config
headers are spread and the single header of the active mode overlaid. -/
def applyAuthFields (env : Env) (hs : List (String × JsValue)) : List (String × JsValue) :=
  if hasBasicAuth env then
    setField hs "Authorization"
      (.str ("Basic " ++ base64 (optStr env.AUTH_BASIC_USERNAME ++ ":" ++ optStr env.AUTH_BASIC_PASSWORD)))
  else if hasBearerAuth env then
    setField hs "Authorization" (.str ("Bearer " ++ optStr env.AUTH_BEARER))
  else if hasApiKeyAuth env then
    setField hs (optStr env.AUTH_APIKEY_HEADER_NAME) (.str (optStr env.AUTH_APIKEY_VALUE))
  else hs

/-- The config actually dispatched: buildConfig with the auth header
overlaid on its headers. -/
def finalConfig (env : Env) (args : JsValue) : AxiosConfig :=
  let cfg := buildConfig args
  { cfg with headers := applyAuthFields env cfg.headers }

/-- The parts of an axios response used by the envelope builder. -/
structure AxiosResponse where
  status : Nat
  statusText : String
  headers : List (String × JsValue)
  data : JsValue

/-- Optional body rendered as the JavaScript value assigned to a property:
an absent config body is the undefined value. -/
def optBody : Option JsValue → JsValue
  | some j => j
  | none => .undefined

/-- Optional axios error code rendered as the value of the code property. -/
def optCode : Option String → JsValue
  | some c => .str c
  | none => .undefined

/-- The success envelope built on any completed HTTP exchange
(src/index.ts lines 199-227). -/
def successEnvelope (baseURL : String) (env : Env) (args : JsValue)
    (resp : AxiosResponse) (startTime endTime : Int) : JsValue :=
  let cfg := finalConfig env args
  .obj
    [("request", .obj
      [("url", .str (baseURL ++ cfg.url)),
       ("method", .str cfg.method),
       ("headers", .obj cfg.headers),
       ("body", optBody cfg.data),
       ("authMethod", .str (authMethodString env))]),
     ("response", .obj
      [("statusCode", .num resp.status),
       ("statusText", .str resp.statusText),
       ("timing", .str (toString (endTime - startTime) ++ "ms")),
       ("headers", .obj resp.headers),
       ("body", resp.data)]),
     ("validation", .obj
      [("isError", .bool (decide (400 ≤ resp.status))),
       ("messages", .arr
         [if 400 ≤ resp.status
          then .str ("Request failed with status " ++ toString resp.status)
          else .str "Request completed successfully"])])]

/-- The envelope built in the catch branch for a recognized axios error
(src/index.ts lines 228-250): a single error object holding message, code,
and the attempted request description. -/
def transportFailureEnvelope (baseURL : String) (env : Env) (args : JsValue)
    (message : String) (code : Option String) : JsValue :=
  let cfg := finalConfig env args
  .obj
    [("error", .obj
      [("message", .str message),
       ("code", optCode code),
       ("request", .obj
         [("url", .str (baseURL ++ cfg.url)),
          ("method", .str cfg.method),
          ("headers", .obj cfg.headers),
          ("body", optBody cfg.data)])])]

/-- Protocol error codes thrown by the handler. -/
inductive ErrorCode where
  | MethodNotFound
  | InvalidParams
deriving DecidableEq

/-- Outcome of the dispatched HTTP exchange, as seen by the try-catch of the
handler: a completed response with the clock readings around the call, a
recognized axios transport error, or any other thrown value. -/
inductive NetOutcome where
  | response (resp : AxiosResponse) (startTime endTime : Int)
  | axiosFailure (message : String) (code : Option String)
  | otherFailure (e : JsValue)

/-- Result of one call-tool invocation: a thrown McpError, a returned content
envelope with the isError flag of the result, or a rethrown foreign error. -/
inductive HandlerOutcome where
  | thrown (code : ErrorCode) (message : String)
  | content (envelope : JsValue) (isErrorFlag : Bool)
  | rethrown (e : JsValue)

/-- The CallToolRequestSchema handler (src/index.ts lines 138-253), with the
HTTP capability abstracted as a function from the dispatched config to a
NetOutcome. -/
def handleCallTool (env : Env) (baseURL : String) (net : AxiosConfig → NetOutcome)
    (toolName : String) (args : JsValue) : HandlerOutcome :=
  if toolName = "endpoint" then
    if isValidEndpointArgs args then
      match net (finalConfig env args) with
      | .response resp t0 t1 => .content (successEnvelope baseURL env args resp t0 t1) false
      | .axiosFailure message code => .content (transportFailureEnvelope baseURL env args message code) true
      | .otherFailure e => .rethrown e
    else .thrown .InvalidParams "Invalid test endpoint arguments"
  else .thrown .MethodNotFound ("Unknown tool: " ++ toolName)

/-- Field access defaulting to undefined, mirroring property access on the
envelope object. -/
def getFieldD (v : JsValue) (k : String) : JsValue :=
  (getField v k).getD JsValue.undefined

/-- Environment with no credentials configured. -/
def envNoAuthEx : Env := ⟨none, none, none, none, none⟩

/-- Environment with only a bearer token configured. -/
def envBearerEx : Env := ⟨none, none, some "tok", none, none⟩

/-- Environment with both basic credentials and a bearer token configured. -/
def envBasicBearerEx : Env := ⟨some "u", some "p", some "tok", none, none⟩

/-- Environment whose only set slot is an empty bearer token. -/
def envEmptyBearerEx : Env := ⟨none, none, some "", none, none⟩

/-- Environment with a username but an empty password. -/
def envEmptyPasswordEx : Env := ⟨some "u", some "", none, none, none⟩

def argsGetEx : JsValue :=
  .obj [("method", .str "GET"), ("endpoint", .str "users")]

def argsGetBodyEx : JsValue :=
  .obj [("method", .str "GET"), ("endpoint", .str "users"), ("body", .obj [("a", .num 1)])]

def argsPatchEx : JsValue :=
  .obj [("method", .str "PATCH"), ("endpoint", .str "/x")]

def argsHeadersNullEx : JsValue :=
  .obj [("method", .str "GET"), ("endpoint", .str "/x"), ("headers", .jsNull)]

def argsHeadersArrEx : JsValue :=
  .obj [("method", .str "GET"), ("endpoint", .str "/x"), ("headers", .arr [.num 1])]

def argsHeadersNumValEx : JsValue :=
  .obj [("method", .str "GET"), ("endpoint", .str "/x"), ("headers", .obj [("X-N", .num 5)])]

def resp200Ex : AxiosResponse :=
  ⟨200, "OK", [("content-type", .str "text/plain")], .str "ok"⟩

def resp404Ex : AxiosResponse :=
  ⟨404, "Not Found", [], .str "missing"⟩

def netOkEx : AxiosConfig → NetOutcome := fun _ => .response resp200Ex 0 5

def netFailEx : AxiosConfig → NetOutcome := fun _ => .axiosFailure "boom" none

def hsEx : List (String × JsValue) :=
  [("Authorization", .str "caller"), ("X-Custom", .str "z")]

/- Helper lemmas. -/

theorem dropLead_no_slash (l : List Char) :
    ∀ c cs, dropLeadingSlashes l = c :: cs → c ≠ '/' := by
  induction l with
  | nil => intro c cs h; simp [dropLeadingSlashes] at h
  | cons a as ih =>
    intro c cs h
    by_cases ha : a = '/'
    · simp only [dropLeadingSlashes, if_pos ha] at h
      exact ih c cs h
    · simp only [dropLeadingSlashes, if_neg ha] at h
      injection h with h1 h2
      subst h1
      exact ha

theorem dropLead_eq_self (l : List Char) (h : ∀ c cs, l = c :: cs → c ≠ '/') :
    dropLeadingSlashes l = l := by
  cases l with
  | nil => rfl
  | cons c cs => simp only [dropLeadingSlashes, if_neg (h c cs rfl)]

theorem dropLead_suffix (l : List Char) : dropLeadingSlashes l <:+ l := by
  induction l with
  | nil => exact List.suffix_rfl
  | cons a as ih =>
    by_cases ha : a = '/'
    · simp only [dropLeadingSlashes, if_pos ha]
      exact ih.trans (List.suffix_cons a as)
    · simp only [dropLeadingSlashes, if_neg ha]
      exact List.suffix_rfl

theorem strip_no_lead (l : List Char) :
    ∀ c cs, stripSlashes l = c :: cs → c ≠ '/' := by
  intro c cs h
  simp only [stripSlashes] at h
  have hsuf : dropLeadingSlashes (dropLeadingSlashes l).reverse <:+ (dropLeadingSlashes l).reverse :=
    dropLead_suffix _
  have hpre : (dropLeadingSlashes (dropLeadingSlashes l).reverse).reverse <+: dropLeadingSlashes l := by
    have := hsuf.reverse
    simpa using this
  obtain ⟨r, hr⟩ := hpre
  rw [h] at hr
  exact dropLead_no_slash l c (cs ++ r) hr.symm

theorem strip_no_trail (l : List Char) :
    ∀ c cs, (stripSlashes l).reverse = c :: cs → c ≠ '/' := by
  intro c cs h
  simp only [stripSlashes, List.reverse_reverse] at h
  exact dropLead_no_slash _ c cs h

theorem strip_slash_cons_strip (l : List Char) :
    stripSlashes ('/' :: stripSlashes l) = stripSlashes l := by
  have h1 : dropLeadingSlashes ('/' :: stripSlashes l) = stripSlashes l := by
    simp only [dropLeadingSlashes, if_pos rfl]
    exact dropLead_eq_self _ (strip_no_lead l)
  have h2 : dropLeadingSlashes (stripSlashes l).reverse = (stripSlashes l).reverse :=
    dropLead_eq_self _ (strip_no_trail l)
  show (dropLeadingSlashes (dropLeadingSlashes ('/' :: stripSlashes l)).reverse).reverse = stripSlashes l
  rw [h1, h2, List.reverse_reverse]

theorem lookup_setField_self (hs : List (String × JsValue)) (k : String) (v : JsValue) :
    (setField hs k v).lookup k = some v := by
  induction hs with
  | nil => simp [setField, List.lookup]
  | cons p rest ih =>
    obtain ⟨k0, v0⟩ := p
    by_cases h : k0 = k
    · simp [setField, if_pos h, List.lookup]
    · simp only [setField, if_neg h, List.lookup]
      have : (k == k0) = false := by
        simp [Ne.symm h]
      simp [this, ih]

theorem lookup_setField_ne (hs : List (String × JsValue)) (k k2 : String) (v : JsValue)
    (h : k2 ≠ k) : (setField hs k v).lookup k2 = hs.lookup k2 := by
  have hbe : (k2 == k) = false := by simp [h]
  induction hs with
  | nil => simp [setField, List.lookup, hbe]
  | cons p rest ih =>
    obtain ⟨k0, v0⟩ := p
    by_cases h0 : k0 = k
    · subst h0
      simp [setField, List.lookup, hbe]
    · simp only [setField, if_neg h0, List.lookup]
      cases hbe : (k2 == k0) <;> simp [ih]

theorem applyAuthFields_eq (env : Env) (hs : List (String × JsValue)) :
    applyAuthFields env hs =
      match authHeaderKV env with
      | some (k, v) => setField hs k (JsValue.str v)
      | none => hs := by
  by_cases h1 : hasBasicAuth env
  · simp [applyAuthFields, authHeaderKV, h1]
  · by_cases h2 : hasBearerAuth env
    · simp [applyAuthFields, authHeaderKV, h1, h2]
    · by_cases h3 : hasApiKeyAuth env
      · simp [applyAuthFields, authHeaderKV, h1, h2, h3]
      · simp [applyAuthFields, authHeaderKV, h1, h2, h3]

theorem authHeaderKV_none_iff (env : Env) :
    authHeaderKV env = none ↔ activeMode env = AuthMode.noAuth := by
  by_cases h1 : hasBasicAuth env
  · simp [authHeaderKV, activeMode, h1]
  · by_cases h2 : hasBearerAuth env
    · simp [authHeaderKV, activeMode, h1, h2]
    · by_cases h3 : hasApiKeyAuth env
      · simp [authHeaderKV, activeMode, h1, h2, h3]
      · simp [authHeaderKV, activeMode, h1, h2, h3]

/-- C6: endpoint normalization (strip all leading and trailing slash runs,
then prepend exactly one slash) is idempotent for every endpoint string, and
normalizing "/users/", "users" and "///a/b///" yields "/users", "/users" and
"/a/b" respectively. -/
theorem normalizedEndpoint_idempotent :
    (∀ s : String, normalizedEndpoint (normalizedEndpoint s) = normalizedEndpoint s) ∧
    normalizedEndpoint "/users/" = "/users" ∧
    normalizedEndpoint "users" = "/users" ∧
    normalizedEndpoint "///a/b///" = "/a/b" := by
  refine ⟨?_, rfl, rfl, rfl⟩
  intro s
  exact congrArg (fun l => String.mk ('/' :: l)) (strip_slash_cons_strip s.data)

/-- C4: for every configuration of the credential environment slots exactly
one authentication mode is active, chosen by the fixed precedence
Basic over Bearer over ApiKey over none; Basic requires both username and
password truthy, ApiKey requires both header name and value truthy, and a
partial pair never activates its mode. -/
theorem activeMode_precedence (env : Env) :
    (activeMode env = AuthMode.basic ↔ hasBasicAuth env = true) ∧
    (activeMode env = AuthMode.bearer ↔ (hasBasicAuth env = false ∧ hasBearerAuth env = true)) ∧
    (activeMode env = AuthMode.apikey ↔
      (hasBasicAuth env = false ∧ hasBearerAuth env = false ∧ hasApiKeyAuth env = true)) ∧
    (activeMode env = AuthMode.noAuth ↔
      (hasBasicAuth env = false ∧ hasBearerAuth env = false ∧ hasApiKeyAuth env = false)) ∧
    (hasBasicAuth env = true ↔
      (truthyStr env.AUTH_BASIC_USERNAME = true ∧ truthyStr env.AUTH_BASIC_PASSWORD = true)) ∧
    (hasApiKeyAuth env = true ↔
      (truthyStr env.AUTH_APIKEY_HEADER_NAME = true ∧ truthyStr env.AUTH_APIKEY_VALUE = true)) := by
  refine ⟨?_, ?_, ?_, ?_, ?_, ?_⟩
  · by_cases h1 : hasBasicAuth env
    · simp [activeMode, h1]
    · by_cases h2 : hasBearerAuth env
      · simp [activeMode, h1, h2]
      · by_cases h3 : hasApiKeyAuth env
        · simp [activeMode, h1, h2, h3]
        · simp [activeMode, h1, h2, h3]
  · by_cases h1 : hasBasicAuth env
    · simp [activeMode, h1]
    · by_cases h2 : hasBearerAuth env
      · simp [activeMode, h1, h2]
      · by_cases h3 : hasApiKeyAuth env
        · simp [activeMode, h1, h2, h3]
        · simp [activeMode, h1, h2, h3]
  · by_cases h1 : hasBasicAuth env
    · simp [activeMode, h1]
    · by_cases h2 : hasBearerAuth env
      · simp [activeMode, h1, h2]
      · by_cases h3 : hasApiKeyAuth env
        · simp [activeMode, h1, h2, h3]
        · simp [activeMode, h1, h2, h3]
  · by_cases h1 : hasBasicAuth env
    · simp [activeMode, h1]
    · by_cases h2 : hasBearerAuth env
      · simp [activeMode, h1, h2]
      · by_cases h3 : hasApiKeyAuth env
        · simp [activeMode, h1, h2, h3]
        · simp [activeMode, h1, h2, h3]
  · simp [hasBasicAuth, Bool.and_eq_true]
  · simp [hasApiKeyAuth, Bool.and_eq_true]

/-- Witness for C4: with basic credentials and a bearer token both configured
the active mode is Basic, the higher-precedence mode. -/
theorem activeMode_precedence_witness :
    activeMode envBasicBearerEx = AuthMode.basic :=
  (activeMode_precedence envBasicBearerEx).1.mpr rfl

/-- C10: an empty-string credential counts as absent for mode selection: an
empty bearer token alone leaves the mode at none with no header injected, and
a username with an empty password does not activate Basic. -/
theorem empty_credential_absent (env : Env) (hs : List (String × JsValue)) :
    (env.AUTH_BEARER = some "" → hasBearerAuth env = false) ∧
    (env.AUTH_BASIC_PASSWORD = some "" →
      hasBasicAuth env = false ∧ activeMode env ≠ AuthMode.basic) ∧
    (env = envEmptyBearerEx →
      activeMode env = AuthMode.noAuth ∧ applyAuthFields env hs = hs) := by
  refine ⟨?_, ?_, ?_⟩
  · intro h
    simp [hasBearerAuth, truthyStr, h]
  · intro h
    have hb : hasBasicAuth env = false := by
      simp [hasBasicAuth, truthyStr, h]
    refine ⟨hb, ?_⟩
    simp only [activeMode, hb, Bool.false_eq_true, if_false]
    split
    · simp
    · split <;> simp
  · intro h
    subst h
    exact ⟨rfl, rfl⟩

/-- Witness for C10: the empty-bearer environment selects no authentication
and leaves the caller headers untouched, and an empty password disables
Basic. -/
theorem empty_credential_absent_witness :
    activeMode envEmptyBearerEx = AuthMode.noAuth ∧
    applyAuthFields envEmptyBearerEx hsEx = hsEx ∧
    hasBasicAuth envEmptyPasswordEx = false := by
  refine ⟨?_, ?_, ?_⟩
  · exact ((empty_credential_absent envEmptyBearerEx hsEx).2.2 rfl).1
  · exact ((empty_credential_absent envEmptyBearerEx hsEx).2.2 rfl).2
  · exact ((empty_credential_absent envEmptyPasswordEx hsEx).2.1 rfl).1

/-- C5: caller headers are copied first and then exactly one authentication
header is overlaid for the active mode, overwriting a caller header of the
same name and leaving every other name unchanged; with no active mode the
caller headers pass through unchanged. -/
theorem auth_header_overlay (env : Env) (hs : List (String × JsValue)) :
    (activeMode env = AuthMode.noAuth → applyAuthFields env hs = hs) ∧
    (∀ k v, authHeaderKV env = some (k, v) →
      applyAuthFields env hs = setField hs k (JsValue.str v) ∧
      (applyAuthFields env hs).lookup k = some (JsValue.str v) ∧
      (∀ k2, k2 ≠ k → (applyAuthFields env hs).lookup k2 = hs.lookup k2)) := by
  constructor
  · intro h
    rw [applyAuthFields_eq, (authHeaderKV_none_iff env).mpr h]
  · intro k v h
    have he : applyAuthFields env hs = setField hs k (JsValue.str v) := by
      rw [applyAuthFields_eq, h]
    refine ⟨he, ?_, ?_⟩
    · rw [he]
      exact lookup_setField_self hs k (JsValue.str v)
    · intro k2 hk2
      rw [he]
      exact lookup_setField_ne hs k k2 (JsValue.str v) hk2

/-- Witness for C5: with a bearer token configured, a caller-supplied
Authorization header is overwritten by the injected bearer header and an
unrelated header survives. -/
theorem auth_header_overlay_witness :
    applyAuthFields envBearerEx hsEx = setField hsEx "Authorization" (JsValue.str "Bearer tok") ∧
    (applyAuthFields envBearerEx hsEx).lookup "Authorization" = some (JsValue.str "Bearer tok") ∧
    (applyAuthFields envBearerEx hsEx).lookup "X-Custom" = hsEx.lookup "X-Custom" := by
  have h := (auth_header_overlay envBearerEx hsEx).2 "Authorization" "Bearer tok" rfl
  exact ⟨h.1, h.2.1, h.2.2 "X-Custom" (by decide)⟩

/-- C7: a body is attached to the outbound config only for a POST or PUT with
a body supplied (and truthy); a GET or DELETE invocation never carries a body
even when one was supplied. -/
theorem body_only_for_post_put (env : Env) (args : JsValue) :
    ((getProp args "method" = JsValue.str "GET" ∨ getProp args "method" = JsValue.str "DELETE") →
      (finalConfig env args).data = none) ∧
    (∀ j, (finalConfig env args).data = some j →
      (getProp args "method" = JsValue.str "POST" ∨ getProp args "method" = JsValue.str "PUT") ∧
      j = getProp args "body" ∧ jsTruthy (getProp args "body") = true) := by
  constructor
  · intro h
    rcases h with h | h <;> simp [finalConfig, buildConfig, asString, h]
  · intro j h
    cases hm : getProp args "method" with
    | str s =>
      simp only [finalConfig, buildConfig, asString, hm] at h
      by_cases hc : ((s == "POST" || s == "PUT") && jsTruthy (getProp args "body")) = true
      · rw [if_pos hc] at h
        injection h with hj
        rw [Bool.and_eq_true, Bool.or_eq_true] at hc
        obtain ⟨hsm, htr⟩ := hc
        refine ⟨?_, hj.symm, htr⟩
        rcases hsm with hsm | hsm
        · left
          rw [beq_iff_eq.mp hsm]
        · right
          rw [beq_iff_eq.mp hsm]
      · rw [if_neg hc] at h
        exact absurd h (by simp)
    | undefined => simp [finalConfig, buildConfig, asString, hm] at h
    | jsNull => simp [finalConfig, buildConfig, asString, hm] at h
    | bool b => simp [finalConfig, buildConfig, asString, hm] at h
    | num n => simp [finalConfig, buildConfig, asString, hm] at h
    | arr xs => simp [finalConfig, buildConfig, asString, hm] at h
    | obj fs => simp [finalConfig, buildConfig, asString, hm] at h

/-- Witness for C7: a GET invocation with a supplied body yields an outbound
config without a body. -/
theorem body_only_for_post_put_witness :
    (finalConfig envNoAuthEx argsGetBodyEx).data = none :=
  (body_only_for_post_put envNoAuthEx argsGetBodyEx).1 (Or.inl rfl)

/-- C8: an invocation of an unknown tool name is rejected with a
MethodNotFound error, and an invocation whose method is any value outside
the enumeration GET, POST, PUT, DELETE (the includesMethod check, shown to
accept exactly those four strings), whose arguments are not an object, or
whose endpoint is not a string is rejected with an InvalidParams error; in
both cases the outcome is independent of the HTTP capability, so no network
access happens. -/
theorem protocol_rejection (env : Env) (baseURL : String) (net : AxiosConfig → NetOutcome)
    (toolName : String) (args : JsValue) :
    (toolName ≠ "endpoint" →
      handleCallTool env baseURL net toolName args =
        HandlerOutcome.thrown ErrorCode.MethodNotFound ("Unknown tool: " ++ toolName)) ∧
    (isValidEndpointArgs args = false →
      handleCallTool env baseURL net "endpoint" args =
        HandlerOutcome.thrown ErrorCode.InvalidParams "Invalid test endpoint arguments") ∧
    (includesMethod (getProp args "method") = true ↔
      (getProp args "method" = JsValue.str "GET" ∨ getProp args "method" = JsValue.str "POST" ∨
       getProp args "method" = JsValue.str "PUT" ∨ getProp args "method" = JsValue.str "DELETE")) ∧
    (includesMethod (getProp args "method") = false → isValidEndpointArgs args = false) ∧
    ((typeof args ≠ "object" ∨ args = JsValue.jsNull) → isValidEndpointArgs args = false) ∧
    (typeof (getProp args "endpoint") ≠ "string" → isValidEndpointArgs args = false) ∧
    ((toolName ≠ "endpoint" ∨ isValidEndpointArgs args = false) → ∀ net2,
      handleCallTool env baseURL net toolName args =
        handleCallTool env baseURL net2 toolName args) := by
  refine ⟨?_, ?_, ?_, ?_, ?_, ?_, ?_⟩
  · intro h
    simp [handleCallTool, h]
  · intro h
    simp [handleCallTool, h]
  · cases hm : getProp args "method" <;> simp [includesMethod, or_assoc]
  · intro h
    simp only [isValidEndpointArgs]
    split
    · rfl
    · rw [h]
      simp
  · intro h
    simp only [isValidEndpointArgs]
    rcases h with h | h
    · rw [if_pos]
      simp [bne, h]
    · subst h
      rfl
  · intro h
    simp only [isValidEndpointArgs]
    split
    · rfl
    · split
      · rfl
      · rw [if_pos]
        simp [bne, h]
  · intro h net2
    by_cases ht : toolName = "endpoint"
    · subst ht
      rcases h with h | h
      · exact absurd rfl h
      · simp [handleCallTool, h]
    · simp [handleCallTool, ht]

/-- Witness for C8: a PATCH invocation fails the method membership check and
is rejected with InvalidParams, and an unknown tool name is rejected with
MethodNotFound, with a stub network capability. -/
theorem protocol_rejection_witness :
    handleCallTool envNoAuthEx "http://api" netFailEx "other" argsPatchEx =
      HandlerOutcome.thrown ErrorCode.MethodNotFound "Unknown tool: other" ∧
    isValidEndpointArgs argsPatchEx = false ∧
    handleCallTool envNoAuthEx "http://api" netFailEx "endpoint" argsPatchEx =
      HandlerOutcome.thrown ErrorCode.InvalidParams "Invalid test endpoint arguments" := by
  refine ⟨?_, ?_, ?_⟩
  · exact (protocol_rejection envNoAuthEx "http://api" netFailEx "other" argsPatchEx).1 (by decide)
  · exact (protocol_rejection envNoAuthEx "http://api" netFailEx "endpoint" argsPatchEx).2.2.2.1 rfl
  · exact (protocol_rejection envNoAuthEx "http://api" netFailEx "endpoint" argsPatchEx).2.1 rfl

/-- C2: on every completed HTTP exchange the success envelope marks
validation.isError true exactly when the status code is at least 400, with
the single failure message naming the status code, and otherwise the single
success message. -/
theorem validation_status_classification (baseURL : String) (env : Env) (args : JsValue)
    (resp : AxiosResponse) (t0 t1 : Int) :
    (getPath2 (successEnvelope baseURL env args resp t0 t1) "validation" "isError" =
        some (JsValue.bool true) ↔ 400 ≤ resp.status) ∧
    (getPath2 (successEnvelope baseURL env args resp t0 t1) "validation" "isError" =
        some (JsValue.bool false) ↔ resp.status < 400) ∧
    (400 ≤ resp.status →
      getPath2 (successEnvelope baseURL env args resp t0 t1) "validation" "messages" =
        some (JsValue.arr [JsValue.str ("Request failed with status " ++ toString resp.status)])) ∧
    (resp.status < 400 →
      getPath2 (successEnvelope baseURL env args resp t0 t1) "validation" "messages" =
        some (JsValue.arr [JsValue.str "Request completed successfully"])) := by
  have hie : getPath2 (successEnvelope baseURL env args resp t0 t1) "validation" "isError" =
      some (JsValue.bool (decide (400 ≤ resp.status))) := rfl
  have hms : getPath2 (successEnvelope baseURL env args resp t0 t1) "validation" "messages" =
      some (JsValue.arr
        [if 400 ≤ resp.status
         then JsValue.str ("Request failed with status " ++ toString resp.status)
         else JsValue.str "Request completed successfully"]) := rfl
  refine ⟨?_, ?_, ?_, ?_⟩
  · rw [hie]
    simp
  · rw [hie]
    simp [Nat.not_le]
  · intro h
    rw [hms, if_pos h]
  · intro h
    rw [hms, if_neg (Nat.not_le.mpr h)]

/-- Witness for C2: a 404 exchange yields isError true with the failure
message for status 404, and a 200 exchange yields isError false with the
success message. -/
theorem validation_status_classification_witness :
    getPath2 (successEnvelope "http://api" envNoAuthEx argsGetEx resp404Ex 0 5)
      "validation" "isError" = some (JsValue.bool true) ∧
    getPath2 (successEnvelope "http://api" envNoAuthEx argsGetEx resp404Ex 0 5)
      "validation" "messages" = some (JsValue.arr [JsValue.str "Request failed with status 404"]) ∧
    getPath2 (successEnvelope "http://api" envNoAuthEx argsGetEx resp200Ex 0 5)
      "validation" "isError" = some (JsValue.bool false) ∧
    getPath2 (successEnvelope "http://api" envNoAuthEx argsGetEx resp200Ex 0 5)
      "validation" "messages" = some (JsValue.arr [JsValue.str "Request completed successfully"]) := by
  have h404 := validation_status_classification "http://api" envNoAuthEx argsGetEx resp404Ex 0 5
  have h200 := validation_status_classification "http://api" envNoAuthEx argsGetEx resp200Ex 0 5
  refine ⟨h404.1.mpr (by decide), ?_, h200.2.1.mpr (by decide), h200.2.2.2 (by decide)⟩
  have := h404.2.2.1 (by decide)
  simpa using this

/-- C1 counterexample: in the code the request description is nested inside
the error object, so the failure envelope has the single top-level field
error and no top-level request sibling. -/
theorem transport_failure_siblings_counterexample :
    serializedKeys (transportFailureEnvelope "http://api" envBearerEx argsGetEx
      "connect ECONNREFUSED" (some "ECONNREFUSED")) = ["error"] ∧
    getField (transportFailureEnvelope "http://api" envBearerEx argsGetEx
      "connect ECONNREFUSED" (some "ECONNREFUSED")) "request" = none :=
  ⟨rfl, rfl⟩

/-- C1 amended: the transport failure envelope has exactly one top-level
field error, which contains the message, the code, and the outbound request
description nested under request, with the auth header already applied to
its headers. -/
theorem transport_failure_shape (baseURL : String) (env : Env) (args : JsValue)
    (message : String) (code : String) :
    serializedKeys (transportFailureEnvelope baseURL env args message (some code)) = ["error"] ∧
    getPath2 (transportFailureEnvelope baseURL env args message (some code)) "error" "message" =
      some (JsValue.str message) ∧
    getPath2 (transportFailureEnvelope baseURL env args message (some code)) "error" "code" =
      some (JsValue.str code) ∧
    serializedKeys (getFieldD (transportFailureEnvelope baseURL env args message (some code)) "error") =
      ["message", "code", "request"] ∧
    getPath2 (transportFailureEnvelope baseURL env args message (some code)) "error" "request" =
      some (JsValue.obj
        [("url", JsValue.str (baseURL ++ (finalConfig env args).url)),
         ("method", JsValue.str (finalConfig env args).method),
         ("headers", JsValue.obj (finalConfig env args).headers),
         ("body", optBody (finalConfig env args).data)]) ∧
    (∀ k v, authHeaderKV env = some (k, v) →
      (finalConfig env args).headers.lookup k = some (JsValue.str v)) := by
  refine ⟨rfl, rfl, rfl, rfl, rfl, ?_⟩
  intro k v h
  show (applyAuthFields env (buildConfig args).headers).lookup k = some (JsValue.str v)
  rw [applyAuthFields_eq, h]
  exact lookup_setField_self _ k (JsValue.str v)

/-- Witness for the amended C1: with a bearer token configured the failure
envelope keeps everything under error, and the nested request headers carry
the injected bearer header. -/
theorem transport_failure_shape_witness :
    serializedKeys (transportFailureEnvelope "http://api" envBearerEx argsGetEx
      "boom" (some "ECONNREFUSED")) = ["error"] ∧
    (finalConfig envBearerEx argsGetEx).headers.lookup "Authorization" =
      some (JsValue.str "Bearer tok") := by
  have h := transport_failure_shape "http://api" envBearerEx argsGetEx "boom" "ECONNREFUSED"
  exact ⟨h.1, h.2.2.2.2.2 "Authorization" "Bearer tok" rfl⟩

/-- C9 counterexample: the success envelope response object has no field
named timingMs; the timing information is the string-valued field timing. -/
theorem success_envelope_timing_counterexample :
    getPath2 (successEnvelope "http://api" envNoAuthEx argsGetEx resp200Ex 0 5)
      "response" "timingMs" = none ∧
    getPath2 (successEnvelope "http://api" envNoAuthEx argsGetEx resp200Ex 0 5)
      "response" "timing" = some (JsValue.str "5ms") :=
  ⟨rfl, rfl⟩

/-- C9 amended: every success envelope has exactly the top-level fields
request, response and validation; response carries statusCode, statusText,
the string field timing rendering the elapsed milliseconds, headers, and
body, and the elapsed count is non-negative whenever the completion clock
reading is at least the dispatch reading. -/
theorem success_envelope_shape (baseURL : String) (env : Env) (args : JsValue)
    (resp : AxiosResponse) (t0 t1 : Int) (h : t0 ≤ t1) :
    serializedKeys (successEnvelope baseURL env args resp t0 t1) =
      ["request", "response", "validation"] ∧
    getPath2 (successEnvelope baseURL env args resp t0 t1) "response" "statusCode" =
      some (JsValue.num resp.status) ∧
    getPath2 (successEnvelope baseURL env args resp t0 t1) "response" "statusText" =
      some (JsValue.str resp.statusText) ∧
    getPath2 (successEnvelope baseURL env args resp t0 t1) "response" "timing" =
      some (JsValue.str (toString (t1 - t0) ++ "ms")) ∧
    0 ≤ t1 - t0 ∧
    getPath2 (successEnvelope baseURL env args resp t0 t1) "response" "headers" =
      some (JsValue.obj resp.headers) ∧
    getPath2 (successEnvelope baseURL env args resp t0 t1) "response" "body" =
      some resp.data ∧
    (isUndefined resp.data = false →
      serializedKeys (getFieldD (successEnvelope baseURL env args resp t0 t1) "response") =
        ["statusCode", "statusText", "timing", "headers", "body"]) := by
  refine ⟨rfl, rfl, rfl, rfl, by omega, rfl, rfl, ?_⟩
  intro hd
  have hresp : getFieldD (successEnvelope baseURL env args resp t0 t1) "response" =
      JsValue.obj
        [("statusCode", JsValue.num resp.status),
         ("statusText", JsValue.str resp.statusText),
         ("timing", JsValue.str (toString (t1 - t0) ++ "ms")),
         ("headers", JsValue.obj resp.headers),
         ("body", resp.data)] := rfl
  rw [hresp]
  clear hresp
  revert hd
  cases resp.data <;> intro hd <;> simp_all [serializedKeys, List.filter_cons, isUndefined]

/-- Witness for the amended C9: a completed 200 exchange measured from clock
reading 0 to 5 has the three envelope fields and a 5ms timing string. -/
theorem success_envelope_shape_witness :
    serializedKeys (successEnvelope "http://api" envNoAuthEx argsGetEx resp200Ex 0 5) =
      ["request", "response", "validation"] ∧
    getPath2 (successEnvelope "http://api" envNoAuthEx argsGetEx resp200Ex 0 5)
      "response" "timing" = some (JsValue.str "5ms") ∧
    serializedKeys (getFieldD (successEnvelope "http://api" envNoAuthEx argsGetEx resp200Ex 0 5)
      "response") = ["statusCode", "statusText", "timing", "headers", "body"] := by
  have h := success_envelope_shape "http://api" envNoAuthEx argsGetEx resp200Ex 0 5 (by decide)
  exact ⟨h.1, h.2.2.2.1, h.2.2.2.2.2.2.2 rfl⟩

/-- C3: the validator accepts a headers value that is null, an array, or a
map with non-string values, because the typeof check classifies all of them
as object; such an invocation is not rejected and proceeds to the HTTP
capability. -/
theorem headers_validation_gap :
    isValidEndpointArgs argsHeadersNullEx = true ∧
    isValidEndpointArgs argsHeadersArrEx = true ∧
    isValidEndpointArgs argsHeadersNumValEx = true ∧
    handleCallTool envNoAuthEx "http://api" netOkEx "endpoint" argsHeadersNullEx =
      HandlerOutcome.content
        (successEnvelope "http://api" envNoAuthEx argsHeadersNullEx resp200Ex 0 5) false :=
  ⟨rfl, rfl, rfl, rfl⟩

end RestApi
